import Mathlib

/-!
Verification development for the `json_schema_tools_rs` workspace.

The Rust data model (`serde_json_schema`), the dereferencer
(`dereference_json_schema`), the discoverer (`schema_discovery`) and the
registry (`schema_registry`) are shallowly embedded below.  `HashMap` values
are modelled as association lists with unique keys (insertion replaces);
recursion that is unbounded in the source (reference chasing, tree walks) is
made total with an explicit fuel parameter, structurally decreasing, so that
every definition evaluates by kernel reduction.  Rust `f64` payloads are
carried as opaque bit patterns: the core never interprets them, it only
clones and compares presence.
-/

/-- `AnyType` from `serde_json_schema`: an arbitrary JSON value slot.
The `num` payload stands for the bit pattern of the source's `f64`, which the
core carries opaquely. -/
inductive AnyType where
  | str (s : String)
  | arr (xs : List AnyType)
  | int (i : Int)
  | num (bits : Nat)
  | boolean (b : Bool)
  | null (u : Option Unit)

/-- `PropertyNames` from `serde_json_schema`. -/
structure PropertyNames where
  pattern : Option String

/-- `StringOrStringArray` from `serde_json_schema`. -/
inductive StringOrStringArray where
  | str (s : String)
  | arr (xs : List String)

/-- `IntegerOrNumber` from `serde_json_schema` (`num` carries f64 bits). -/
inductive IntegerOrNumber where
  | int (i : Int)
  | num (bits : Nat)

/-- `BooleanOrIntegerOrNumber` from `serde_json_schema`. -/
inductive BooleanOrIntegerOrNumber where
  | int (i : Int)
  | num (bits : Nat)
  | boolean (b : Bool)

/-- `BooleanOrSchema` from `serde_json_schema`, parametric in the schema type
so that `Schema` below is a plain nested inductive. -/
inductive BoolOr (S : Type) where
  | boolean (b : Bool)
  | innerSchema (s : S)

/-- The field record of a schema node, parametric in the schema type.
Fields appear in the order of the Rust `Schema` struct; `HashMap<String, _>`
is an association list, `Box<Schema>` and `Vec<Schema>` are plain and list
occurrences. -/
structure SchemaF (S : Type) where
  dollar_id : Option String
  id : Option String
  schema : Option String
  title : Option String
  schema_type : Option StringOrStringArray
  properties : Option (List (String × S))
  description : Option String
  minimum : Option Int
  min_length : Option Int
  max_length : Option Int
  definitions : Option (List (String × S))
  required : Option StringOrStringArray
  items : Option (BoolOr S)
  additional_items : Option (BoolOr S)
  reference : Option String
  schema_enum : Option (List AnyType)
  pattern : Option String
  dependent_required : Option (List (String × List String))
  dependent_schemas : Option (List (String × S))
  schema_const : Option AnyType
  schema_if : Option S
  schema_then : Option S
  schema_else : Option S
  format : Option String
  one_of : Option (List S)
  all_of : Option (List S)
  any_of : Option (List S)
  not : Option S
  anchor : Option String
  maximum : Option Int
  multiple_of : Option IntegerOrNumber
  exlusive_maximum : Option BooleanOrIntegerOrNumber
  pattern_properties : Option (List (String × S))
  additional_properties : Option (BoolOr S)
  unevaluated_properties : Option (BoolOr S)
  property_names : Option PropertyNames
  min_properties : Option Int
  max_properties : Option Int
  prefix_items : Option (List S)
  unevaluated_items : Option (BoolOr S)
  contains : Option (BoolOr S)
  min_contains : Option Int
  max_contains : Option Int
  min_items : Option Int
  max_items : Option Int
  unique_items : Option Bool
  default : Option AnyType
  examples : Option (List AnyType)
  deprecated : Option Bool
  read_only : Option Bool
  write_only : Option Bool
  comment : Option String
  content_encoding : Option String
  content_media_type : Option String

/-- `Schema` from `serde_json_schema`: one schema node. -/
inductive Schema where
  | mk (f : SchemaF Schema)

/-- The concrete `BooleanOrSchema` type of the source. -/
abbrev BooleanOrSchema := BoolOr Schema

/-- Projection to the field record. -/
def Schema.fields : Schema → SchemaF Schema
  | .mk f => f

abbrev Schema.dollar_id (s : Schema) : Option String := s.fields.dollar_id

abbrev Schema.id (s : Schema) : Option String := s.fields.id

abbrev Schema.title (s : Schema) : Option String := s.fields.title

abbrev Schema.properties (s : Schema) : Option (List (String × Schema)) := s.fields.properties

abbrev Schema.definitions (s : Schema) : Option (List (String × Schema)) := s.fields.definitions

abbrev Schema.required (s : Schema) : Option StringOrStringArray := s.fields.required

abbrev Schema.schema_type (s : Schema) : Option StringOrStringArray := s.fields.schema_type

abbrev Schema.items (s : Schema) : Option BooleanOrSchema := s.fields.items

abbrev Schema.additional_items (s : Schema) : Option BooleanOrSchema := s.fields.additional_items

abbrev Schema.reference (s : Schema) : Option String := s.fields.reference

abbrev Schema.dependent_schemas (s : Schema) : Option (List (String × Schema)) := s.fields.dependent_schemas

abbrev Schema.schema_if (s : Schema) : Option Schema := s.fields.schema_if

abbrev Schema.schema_then (s : Schema) : Option Schema := s.fields.schema_then

abbrev Schema.schema_else (s : Schema) : Option Schema := s.fields.schema_else

abbrev Schema.one_of (s : Schema) : Option (List Schema) := s.fields.one_of

abbrev Schema.all_of (s : Schema) : Option (List Schema) := s.fields.all_of

abbrev Schema.any_of (s : Schema) : Option (List Schema) := s.fields.any_of

abbrev Schema.schemaNot (s : Schema) : Option Schema := s.fields.not

abbrev Schema.anchor (s : Schema) : Option String := s.fields.anchor

abbrev Schema.pattern_properties (s : Schema) : Option (List (String × Schema)) := s.fields.pattern_properties

abbrev Schema.additional_properties (s : Schema) : Option BooleanOrSchema := s.fields.additional_properties

abbrev Schema.unevaluated_properties (s : Schema) : Option BooleanOrSchema := s.fields.unevaluated_properties

abbrev Schema.prefix_items (s : Schema) : Option (List Schema) := s.fields.prefix_items

abbrev Schema.unevaluated_items (s : Schema) : Option BooleanOrSchema := s.fields.unevaluated_items

abbrev Schema.contains (s : Schema) : Option BooleanOrSchema := s.fields.contains

/-- The all-absent schema node `{}`; concrete inputs below are built from it
by record update. -/
def SchemaF.allNone : SchemaF Schema :=
  { dollar_id := none, id := none, schema := none, title := none
    schema_type := none, properties := none, description := none
    minimum := none, min_length := none, max_length := none
    definitions := none, required := none, items := none
    additional_items := none, reference := none, schema_enum := none
    pattern := none, dependent_required := none, dependent_schemas := none
    schema_const := none, schema_if := none, schema_then := none
    schema_else := none, format := none, one_of := none, all_of := none
    any_of := none, not := none, anchor := none, maximum := none
    multiple_of := none, exlusive_maximum := none, pattern_properties := none
    additional_properties := none, unevaluated_properties := none
    property_names := none, min_properties := none, max_properties := none
    prefix_items := none, unevaluated_items := none, contains := none
    min_contains := none, max_contains := none, min_items := none
    max_items := none, unique_items := none, default := none
    examples := none, deprecated := none, read_only := none
    write_only := none, comment := none, content_encoding := none
    content_media_type := none }

/-- Merge failure.  The source reports errors as the string
"Clashing definition"; `outOfFuel` is the model's name for the source's
potential unbounded recursion (reference cycles, see spec section 9). -/
inductive MergeErr where
  | clashingDefinition
  | outOfFuel
deriving DecidableEq

/-- Association-list lookup, the model of `HashMap::get`. -/
def lookupKey (l : List (String × β)) (k : String) : Option β :=
  (l.find? (fun kv => kv.1 == k)).map (·.2)

/-- The model of `HashMap::contains_key`. -/
def containsKey (l : List (String × β)) (k : String) : Bool :=
  (lookupKey l k).isSome

/-- The model of `HashMap::insert` (replace an existing key, else append). -/
def insertReplace (l : List (String × β)) (k : String) (v : β) : List (String × β) :=
  if containsKey l k then l.map (fun kv => if kv.1 == k then (k, v) else kv)
  else l ++ [(k, v)]

/-- `Option<HashMap<..>>` viewed as its list of entries (iterating a `None`
map yields nothing). -/
def optEntries (o : Option (List (String × β))) : List (String × β) :=
  o.getD []

/-- `Merge for Option<T>` for every scalar payload (the source repeats this
body verbatim for `String`, `i64`, `bool`, `AnyType`,
`BooleanOrIntegerOrNumber`, `PropertyNames` and `IntegerOrNumber`): fold the
chained iterators, erroring as soon as a second value appears. -/
def mergeOptScalar (x y : Option α) : Except MergeErr (Option α) :=
  (x.toList ++ y.toList).foldlM
    (fun acc v =>
      match acc with
      | some _ => .error .clashingDefinition
      | none => .ok (some v))
    none

/-- `Merge for Option<Vec<T>>` (`Vec<AnyType>` and `Vec<Schema>` in the
source): concatenation, never a conflict. -/
def mergeOptVec (x y : Option (List α)) : Except MergeErr (Option (List α)) :=
  (x.toList ++ y.toList).foldlM
    (fun acc next =>
      match acc with
      | some prev => .ok (some (prev ++ next))
      | none => .ok (some next))
    none

/-- One mapping-merge insertion: `map.insert(..).is_none()` — error as soon
as the key is already present. -/
def mergeDictStep (m : List (String × β)) (kv : String × β) :
    Except MergeErr (List (String × β)) :=
  if containsKey m kv.1 then Except.error MergeErr.clashingDefinition
  else Except.ok (insertReplace m kv.1 kv.2)

/-- `Merge for Option<HashMap<String, V>>`: fold all entries of both sides
into a fresh map, failing when an insert hits an existing key, and normalise
an empty result to `None`. -/
def mergeDict (x y : Option (List (String × β))) :
    Except MergeErr (Option (List (String × β))) :=
  (((x.toList ++ y.toList).flatMap (fun m => m)).foldlM mergeDictStep []).map
    (fun m => if m.isEmpty then none else some m)

/-- `Merge for Option<StringOrStringArray>`. -/
def mergeOptSOSA (x y : Option StringOrStringArray) :
    Except MergeErr (Option StringOrStringArray) :=
  (x.toList ++ y.toList).foldlM
    (fun acc v =>
      match acc with
      | some (.str _) => .error .clashingDefinition
      | some (.arr prev) =>
        match v with
        | .arr next => .ok (some (.arr (prev ++ next)))
        | .str _ => .error .clashingDefinition
      | none => .ok (some v))
    none

/-- `Merge for Option<BooleanOrSchema>`, parametric in the recursive schema
merge (two inner schemas merge recursively; a boolean on the first side, or a
boolean meeting a schema, is a conflict). -/
def mergeOptBoSWith (rec : Schema → Schema → Except MergeErr Schema)
    (x y : Option BooleanOrSchema) : Except MergeErr (Option BooleanOrSchema) :=
  (x.toList ++ y.toList).foldlM
    (fun acc v =>
      match acc with
      | some (.boolean _) => .error .clashingDefinition
      | some (.innerSchema prev) =>
        match v with
        | .innerSchema next => (rec prev next).map (fun m => some (.innerSchema m))
        | .boolean _ => .error .clashingDefinition
      | none => .ok (some v))
    none

/-- `Merge for Option<Box<Schema>>`, parametric in the recursive schema
merge. -/
def mergeOptBoxWith (rec : Schema → Schema → Except MergeErr Schema)
    (x y : Option Schema) : Except MergeErr (Option Schema) :=
  (x.toList ++ y.toList).foldlM
    (fun acc next =>
      match acc with
      | some prev => (rec prev next).map some
      | none => .ok (some next))
    none

/-- `Merge for Schema`: field-by-field merge in source order.  Note two
source facts preserved exactly: `reference` is not merged but copied from the
left side, and `additional_items` is merged against the *target's* `items`
field. -/
def mergeSchema : Nat → Schema → Schema → Except MergeErr Schema
  | 0, _, _ => .error .outOfFuel
  | n + 1, .mk a, .mk b => do
    let dollar_id ← mergeOptScalar a.dollar_id b.dollar_id
    let id ← mergeOptScalar a.id b.id
    let schema ← mergeOptScalar a.schema b.schema
    let title ← mergeOptScalar a.title b.title
    let schema_type ← mergeOptSOSA a.schema_type b.schema_type
    let properties ← mergeDict a.properties b.properties
    let description ← mergeOptScalar a.description b.description
    let minimum ← mergeOptScalar a.minimum b.minimum
    let min_length ← mergeOptScalar a.min_length b.min_length
    let max_length ← mergeOptScalar a.max_length b.max_length
    let definitions ← mergeDict a.definitions b.definitions
    let required ← mergeOptSOSA a.required b.required
    let items ← mergeOptBoSWith (mergeSchema n) a.items b.items
    let additional_items ← mergeOptBoSWith (mergeSchema n) a.additional_items b.items
    let schema_enum ← mergeOptVec a.schema_enum b.schema_enum
    let pattern ← mergeOptScalar a.pattern b.pattern
    let dependent_required ← mergeDict a.dependent_required b.dependent_required
    let dependent_schemas ← mergeDict a.dependent_schemas b.dependent_schemas
    let schema_const ← mergeOptScalar a.schema_const b.schema_const
    let schema_if ← mergeOptBoxWith (mergeSchema n) a.schema_if b.schema_if
    let schema_then ← mergeOptBoxWith (mergeSchema n) a.schema_then b.schema_then
    let schema_else ← mergeOptBoxWith (mergeSchema n) a.schema_else b.schema_else
    let format ← mergeOptScalar a.format b.format
    let one_of ← mergeOptVec a.one_of b.one_of
    let all_of ← mergeOptVec a.all_of b.all_of
    let any_of ← mergeOptVec a.any_of b.any_of
    let notM ← mergeOptBoxWith (mergeSchema n) a.not b.not
    let anchor ← mergeOptScalar a.anchor b.anchor
    let maximum ← mergeOptScalar a.maximum b.maximum
    let multiple_of ← mergeOptScalar a.multiple_of b.multiple_of
    let exlusive_maximum ← mergeOptScalar a.exlusive_maximum b.exlusive_maximum
    let pattern_properties ← mergeDict a.pattern_properties b.pattern_properties
    let additional_properties ←
      mergeOptBoSWith (mergeSchema n) a.additional_properties b.additional_properties
    let unevaluated_properties ←
      mergeOptBoSWith (mergeSchema n) a.unevaluated_properties b.unevaluated_properties
    let property_names ← mergeOptScalar a.property_names b.property_names
    let min_properties ← mergeOptScalar a.min_properties b.min_properties
    let max_properties ← mergeOptScalar a.max_properties b.max_properties
    let prefix_items ← mergeOptVec a.prefix_items b.prefix_items
    let unevaluated_items ←
      mergeOptBoSWith (mergeSchema n) a.unevaluated_items b.unevaluated_items
    let contains ← mergeOptBoSWith (mergeSchema n) a.contains b.contains
    let min_contains ← mergeOptScalar a.min_contains b.min_contains
    let max_contains ← mergeOptScalar a.max_contains b.max_contains
    let min_items ← mergeOptScalar a.min_items b.min_items
    let max_items ← mergeOptScalar a.max_items b.max_items
    let unique_items ← mergeOptScalar a.unique_items b.unique_items
    let defaultM ← mergeOptScalar a.default b.default
    let examples ← mergeOptVec a.examples b.examples
    let deprecated ← mergeOptScalar a.deprecated b.deprecated
    let read_only ← mergeOptScalar a.read_only b.read_only
    let write_only ← mergeOptScalar a.write_only b.write_only
    let comment ← mergeOptScalar a.comment b.comment
    let content_encoding ← mergeOptScalar a.content_encoding b.content_encoding
    let content_media_type ← mergeOptScalar a.content_media_type b.content_media_type
    .ok (.mk
      { dollar_id := dollar_id, id := id, schema := schema, title := title
        schema_type := schema_type, properties := properties
        description := description, minimum := minimum
        min_length := min_length, max_length := max_length
        definitions := definitions, required := required, items := items
        additional_items := additional_items, reference := a.reference
        schema_enum := schema_enum, pattern := pattern
        dependent_required := dependent_required
        dependent_schemas := dependent_schemas, schema_const := schema_const
        schema_if := schema_if, schema_then := schema_then
        schema_else := schema_else, format := format, one_of := one_of
        all_of := all_of, any_of := any_of, not := notM, anchor := anchor
        maximum := maximum, multiple_of := multiple_of
        exlusive_maximum := exlusive_maximum
        pattern_properties := pattern_properties
        additional_properties := additional_properties
        unevaluated_properties := unevaluated_properties
        property_names := property_names, min_properties := min_properties
        max_properties := max_properties, prefix_items := prefix_items
        unevaluated_items := unevaluated_items, contains := contains
        min_contains := min_contains, max_contains := max_contains
        min_items := min_items, max_items := max_items
        unique_items := unique_items, default := defaultM
        examples := examples, deprecated := deprecated
        read_only := read_only, write_only := write_only, comment := comment
        content_encoding := content_encoding
        content_media_type := content_media_type })

/-- The concrete `Option<BooleanOrSchema>` merge at a given fuel. -/
abbrev mergeOptBoS (n : Nat) := mergeOptBoSWith (mergeSchema n)

/-- The concrete `Option<Box<Schema>>` merge at a given fuel. -/
abbrev mergeOptBox (n : Nat) := mergeOptBoxWith (mergeSchema n)

/-- Step 1 of `Derefence::dereference for &Schema`: a non-self reference
found in the index is substituted by the recursively dereferenced target
merged with the site; a self pointer, or a reference absent from the index,
keeps the node (`unwrap_or_else(|| Ok(self.clone()))`). -/
def derefRefStep (rec : Schema → Except MergeErr Schema)
    (merge : Schema → Schema → Except MergeErr Schema)
    (idx : List (String × Schema)) (s : Schema) : Except MergeErr Schema :=
  match s.reference with
  | some r =>
    if r == "#" then Except.ok s
    else
      match lookupKey idx r with
      | some target => rec target >>= fun rt => merge s rt
      | none => Except.ok s
  | none => Except.ok s

/-- The `properties` rewriting block of `Derefence::dereference`: fold the
entries into a fresh map, dereferencing each value, and normalise an empty
result to `None`. -/
def derefProps (rec : Schema → Except MergeErr Schema)
    (o : Option (List (String × Schema))) :
    Except MergeErr (Option (List (String × Schema))) :=
  ((optEntries o).foldlM
    (fun (acc : List (String × Schema)) kv =>
      rec kv.2 >>= fun d => Except.ok (acc ++ [(kv.1, d)]))
    []) >>= fun props =>
  Except.ok (if props.isEmpty then none else some props)

/-- The `items` rewriting block of `Derefence::dereference`: dereference an
inner schema, pass anything else through. -/
def derefItems (rec : Schema → Except MergeErr Schema)
    (o : Option BooleanOrSchema) : Except MergeErr (Option BooleanOrSchema) :=
  match o with
  | some (.innerSchema t) => rec t >>= fun d => Except.ok (some (.innerSchema d))
  | other => Except.ok other

/-- `Derefence::dereference for &Schema`: the reference-substitution step,
then the `properties` and `items` rewrites on its result. -/
def derefSchema : Nat → List (String × Schema) → Schema → Except MergeErr Schema
  | 0, _, _ => .error .outOfFuel
  | n + 1, idx, s =>
    derefRefStep (derefSchema n idx) (mergeSchema n) idx s >>= fun m =>
    derefProps (derefSchema n idx) m.properties >>= fun properties =>
    derefItems (derefSchema n idx) m.items >>= fun items =>
    Except.ok (.mk { m.fields with properties := properties, items := items })

/-- The children visited by `IndexSchema::index_anchors`, in the source's
chain order: `properties`, `dependent_schemas`, `pattern_properties` values,
then the inner schemas of the six boolean-or-schema slots, then
`if`/`then`/`else`/`not`, then `oneOf`/`allOf`/`anyOf`/`prefixItems`
(`definitions` is deliberately not among them). -/
def anchorChildren (s : Schema) : List Schema :=
  (optEntries s.properties).map (·.2) ++
  (optEntries s.dependent_schemas).map (·.2) ++
  (optEntries s.pattern_properties).map (·.2) ++
  ([s.items, s.additional_items, s.additional_properties,
    s.unevaluated_properties, s.unevaluated_items, s.contains].flatMap
    (fun o =>
      match o with
      | some (.innerSchema t) => [t]
      | _ => [])) ++
  ([s.schema_if, s.schema_then, s.schema_else, s.schemaNot].flatMap
    Option.toList) ++
  (s.one_of.getD [] ++ s.all_of.getD [] ++ s.any_of.getD [] ++
    s.prefix_items.getD [])

/-- `IndexSchema::index_anchors`: walk every structural child and register
each `$anchor`-bearing node under `#<anchor>`. -/
def indexAnchorsF : Nat → Schema → List (String × Schema) → List (String × Schema)
  | 0, _, idx => idx
  | n + 1, s, idx =>
    let idx := (anchorChildren s).foldl (fun idx c => indexAnchorsF n c idx) idx
    match s.anchor with
    | some a => insertReplace idx ("#" ++ a) s
    | none => idx

/-- `IndexSchema::index`: register anchors, recurse into `definitions` when
at the root path `#` or when the node has a legacy `id`, then register the
node under its path. -/
def indexF : Nat → Schema → List (String × Schema) → String → List (String × Schema)
  | 0, _, idx, _ => idx
  | n + 1, s, idx, path =>
    let idx := indexAnchorsF (n + 1) s idx
    let idx :=
      if path == "#" || s.id.isSome then
        (optEntries s.definitions).foldl
          (fun idx kv => indexF n kv.2 idx (path ++ "/$defs/" ++ kv.1)) idx
      else idx
    insertReplace idx path s

/-- `IndexSchema::to_index`. -/
def toIndexF (n : Nat) (s : Schema) : List (String × Schema) :=
  indexF n s [] "#"

/-- The public `dereference`: build the index, dereference every index entry
against the original index, then dereference the root against the rewritten
index.  The source `unwrap`s each step; failures propagate here as the
`Except` error. -/
def dereference (n : Nat) (s : Schema) : Except MergeErr Schema := do
  let idx := toIndexF n s
  let idx2 ← idx.foldlM
    (fun (acc : List (String × Schema)) kv => do
      let d ← derefSchema n idx kv.2
      Except.ok (insertReplace acc kv.1 d))
    []
  derefSchema n idx2 s

/-- Failure of the `resolve` helper family.  The source calls
`registry.get(reference).expect(reference)`, a process abort;
`panicUnresolvedReference` is that panic made visible. -/
inductive ResolveErr where
  | panicUnresolvedReference (r : String)
  | outOfFuel
deriving DecidableEq

/-- `resolved_schema.anchor = None`. -/
def clearAnchor (s : Schema) : Schema :=
  .mk { s.fields with anchor := none }

/-- `resolve_dictonary_schemas_if_available`, parametric in the recursive
resolve: a value with a reference is wholly replaced by the resolved target
(anchor cleared); a value without one is resolved in place. -/
def resolveDictWith (rec : Schema → Except ResolveErr Schema)
    (d : Option (List (String × Schema))) (reg : List (String × Schema)) :
    Except ResolveErr (Option (List (String × Schema))) :=
  match d with
  | none => Except.ok none
  | some m =>
    (m.foldlM
      (fun (acc : List (String × Schema)) (kv : String × Schema) => do
        let v ← match kv.2.reference with
          | some r =>
            match lookupKey reg r with
            | some target => do
              let rs ← rec target
              Except.ok (clearAnchor rs)
            | none => Except.error (ResolveErr.panicUnresolvedReference r)
          | none => rec kv.2
        Except.ok (acc ++ [(kv.1, v)]))
      []).map some

/-- `resolve_inner_schema_if_available`: only an inner schema that itself
carries a reference is replaced; anything else is left untouched. -/
def resolveInnerWith (rec : Schema → Except ResolveErr Schema)
    (o : Option BooleanOrSchema) (reg : List (String × Schema)) :
    Except ResolveErr (Option BooleanOrSchema) :=
  match o with
  | some (.innerSchema t) =>
    match t.reference with
    | some r =>
      match lookupKey reg r with
      | some target => do
        let rs ← rec target
        Except.ok (some (BoolOr.innerSchema (clearAnchor rs)))
      | none => Except.error (ResolveErr.panicUnresolvedReference r)
    | none => Except.ok (some (BoolOr.innerSchema t))
  | other => Except.ok other

/-- `resolve_sub_schema_if_available`. -/
def resolveSubWith (rec : Schema → Except ResolveErr Schema)
    (o : Option Schema) (reg : List (String × Schema)) :
    Except ResolveErr (Option Schema) :=
  match o with
  | some t =>
    match t.reference with
    | some r =>
      match lookupKey reg r with
      | some target => do
        let rs ← rec target
        Except.ok (some (clearAnchor rs))
      | none => Except.error (ResolveErr.panicUnresolvedReference r)
    | none => Except.ok (some t)
  | none => Except.ok none

/-- The free function `resolve`: rewrite `properties`, `definitions`,
`dependentSchemas`, `items`, `additionalItems` and `if`/`then`/`else`; every
other field is carried over. -/
def resolveF : Nat → Schema → List (String × Schema) → Except ResolveErr Schema
  | 0, _, _ => .error .outOfFuel
  | n + 1, s, reg => do
    let properties ← resolveDictWith (fun t => resolveF n t reg) s.properties reg
    let definitions ← resolveDictWith (fun t => resolveF n t reg) s.definitions reg
    let dependent_schemas ←
      resolveDictWith (fun t => resolveF n t reg) s.dependent_schemas reg
    let items ← resolveInnerWith (fun t => resolveF n t reg) s.items reg
    let additional_items ←
      resolveInnerWith (fun t => resolveF n t reg) s.additional_items reg
    let schema_if ← resolveSubWith (fun t => resolveF n t reg) s.schema_if reg
    let schema_then ← resolveSubWith (fun t => resolveF n t reg) s.schema_then reg
    let schema_else ← resolveSubWith (fun t => resolveF n t reg) s.schema_else reg
    Except.ok (.mk
      { s.fields with
        properties := properties, definitions := definitions
        dependent_schemas := dependent_schemas, items := items
        additional_items := additional_items, schema_if := schema_if
        schema_then := schema_then, schema_else := schema_else })

/-- Modelled from the spec: the keyword-path constants `PROPERTIES_PATH`,
`ITEMS_PATH`, `DEFINITIONS_PATH`, `DEPENDENT_SCHEMAS_PATH` and
`PATTERN_PROPERTIES_PATH` are exported by the schema-model crate but absent
from the sources at hand; the spec fixes canonical identifiers as path
strings through `properties`, `items`, `$defs`, `dependentSchemas` and
`patternProperties`. -/
def PROPERTIES_PATH : String := "properties"

/-- Modelled from the spec: see `PROPERTIES_PATH`. -/
def ITEMS_PATH : String := "items"

/-- Modelled from the spec: `$defs` (see `PROPERTIES_PATH`). -/
def DEFINITIONS_PATH : String := "$defs"

/-- Modelled from the spec: see `PROPERTIES_PATH`. -/
def DEPENDENT_SCHEMAS_PATH : String := "dependentSchemas"

/-- Modelled from the spec: see `PROPERTIES_PATH`. -/
def PATTERN_PROPERTIES_PATH : String := "patternProperties"

/-- Modelled from the spec: `Schema::get_id`, absent from the sources at
hand, is the node's own identity — the primary `$id` or, failing that, the
legacy `id` alias (the same choice `SchemaDiscoverer::new` makes inline). -/
def Schema.get_id (s : Schema) : Option String :=
  s.dollar_id.or s.id

/-- `PathableSchema` from `schema_discovery`. -/
structure PathableSchema where
  root_path : String
  path : String
  schema : Schema

/-- Stable insertion into a path-sorted list (the model of
`sort_by(String::cmp)` on paths). -/
def insertByPath (p : PathableSchema) : List PathableSchema → List PathableSchema
  | [] => [p]
  | q :: rest =>
    if p.path < q.path then p :: q :: rest else q :: insertByPath p rest

/-- Sort children by path string. -/
def sortByPath (l : List PathableSchema) : List PathableSchema :=
  l.foldl (fun acc p => insertByPath p acc) []

/-- Extend a path with a keyword (and key), inserting the `#` fragment
separator when the path does not contain one yet. -/
def extendPath (path : String) (suffix : String) : String :=
  if path.contains '#' then path ++ "/" ++ suffix else path ++ "#/" ++ suffix

/-- `PathableSchema::into_iter`: the direct children, in the source's chain
order `properties`, `items`, `dependent_schemas`, `pattern_properties`,
`definitions`, sorted by path.  A definitions child that declares its own id
becomes a new root; other definitions children are addressed from the
enclosing `root_path`. -/
def childrenOf (p : PathableSchema) : List PathableSchema :=
  let props := (optEntries p.schema.properties).map (fun kv =>
    { root_path := p.root_path
      path := extendPath p.path (PROPERTIES_PATH ++ "/" ++ kv.1)
      schema := kv.2 })
  let items :=
    match p.schema.items with
    | some (.innerSchema t) =>
      [{ root_path := p.root_path, path := extendPath p.path ITEMS_PATH
         schema := t }]
    | _ => []
  let deps := (optEntries p.schema.dependent_schemas).map (fun kv =>
    { root_path := p.root_path
      path := extendPath p.path (DEPENDENT_SCHEMAS_PATH ++ "/" ++ kv.1)
      schema := kv.2 })
  let pats := (optEntries p.schema.pattern_properties).map (fun kv =>
    { root_path := p.root_path
      path := extendPath p.path (PATTERN_PROPERTIES_PATH ++ "/" ++ kv.1)
      schema := kv.2 })
  let defs := (optEntries p.schema.definitions).map (fun kv =>
    match kv.2.get_id with
    | some i => { root_path := i, path := i, schema := kv.2 }
    | none =>
      { root_path := p.root_path
        path := p.root_path ++ "#/" ++ DEFINITIONS_PATH ++ "/" ++ kv.1
        schema := kv.2 })
  sortByPath (props ++ items ++ deps ++ pats ++ defs)

/-- All proper descendants of a pathable schema.  The source iterator drains
child iterators through an explicit stack; the multiset of yielded nodes is
this enumeration, modelled in pre-order. -/
def discoverDescF : Nat → PathableSchema → List PathableSchema
  | 0, _ => []
  | n + 1, p => (childrenOf p).flatMap (fun c => c :: discoverDescF n c)

/-- `SchemaDiscoverer::new` followed by full iteration, projected to the
`(id, schema)` view the registry consumes: a root without `$id`/`id` yields
nothing. -/
def discoverPairsF (n : Nat) (s : Schema) : List (String × Schema) :=
  match s.dollar_id.or s.id with
  | some i =>
    (discoverDescF n { root_path := i, path := i, schema := s }).map
      (fun p => (p.path, p.schema))
  | none => []

/-- `SchemaRegistryIngestionError` from `schema_registry`. -/
inductive SchemaRegistryIngestionError where
  | noInternalIdentifier
  | schemaAlreadyExistsInRegistry
deriving DecidableEq

/-- `SchemaRegistryDiscoveryError` from `schema_registry`. -/
inductive SchemaRegistryDiscoveryError where
  | encounteredDuplicateSchema
deriving DecidableEq

/-- `SchemaRegistry` from `schema_registry`. -/
structure SchemaRegistry where
  discovered_schemas : List (String × Schema)
  schemas : List (String × Schema)

/-- `SchemaRegistry::new` (the `Default` instance). -/
def SchemaRegistry.new : SchemaRegistry :=
  { discovered_schemas := [], schemas := [] }

/-- `SchemaRegistry::schema_exists`. -/
def SchemaRegistry.schema_exists (r : SchemaRegistry) (id : String) : Bool :=
  containsKey r.schemas id || containsKey r.discovered_schemas id

/-- `SchemaRegistry::add_internally_identified_schema`: keyed by the
schema's legacy `id` field. -/
def SchemaRegistry.add_internally_identified_schema (r : SchemaRegistry)
    (s : Schema) : Except SchemaRegistryIngestionError SchemaRegistry :=
  match s.id with
  | none => .error .noInternalIdentifier
  | some i =>
    if r.schema_exists i then .error .schemaAlreadyExistsInRegistry
    else .ok { r with schemas := insertReplace r.schemas i s }

/-- `SchemaRegistry::add_externally_referenced_schema`. -/
def SchemaRegistry.add_externally_referenced_schema (r : SchemaRegistry)
    (external_id : String) (s : Schema) :
    Except SchemaRegistryIngestionError SchemaRegistry :=
  if r.schema_exists external_id then .error .schemaAlreadyExistsInRegistry
  else .ok { r with schemas := insertReplace r.schemas external_id s }

/-- The `for (id, schema) in iter` loop of `SchemaRegistry::discover`,
returning the registry state at the point the loop stops together with the
error, if any. -/
def discoverLoop : List (String × Schema) → SchemaRegistry →
    SchemaRegistry × Option SchemaRegistryDiscoveryError
  | [], r => (r, none)
  | kv :: rest, r =>
    if r.schema_exists kv.1 then
      (r, some .encounteredDuplicateSchema)
    else
      discoverLoop rest
        { r with discovered_schemas := insertReplace r.discovered_schemas kv.1 kv.2 }

/-- `SchemaRegistry::discover`: run the discoverer over every registered
root and insert each yielded pair into the secondary map, failing on a
duplicate. -/
def SchemaRegistry.discover (n : Nat) (r : SchemaRegistry) :
    Except SchemaRegistryDiscoveryError SchemaRegistry :=
  let pairs := r.schemas.flatMap (fun kv => discoverPairsF n kv.2)
  match discoverLoop pairs r with
  | (r2, none) => .ok r2
  | (_, some e) => .error e

/-- `SchemaRegistry::get`: lookup in the primary `schemas` map only. -/
def SchemaRegistry.get (r : SchemaRegistry) (id : String) : Option Schema :=
  lookupKey r.schemas id

/-- Every schema nested directly inside a node, through all structural child
fields of the data model. -/
def childrenList (s : Schema) : List Schema :=
  (optEntries s.properties).map (·.2) ++
  (optEntries s.definitions).map (·.2) ++
  (optEntries s.dependent_schemas).map (·.2) ++
  (optEntries s.pattern_properties).map (·.2) ++
  ([s.items, s.additional_items, s.additional_properties,
    s.unevaluated_properties, s.unevaluated_items, s.contains].flatMap
    (fun o =>
      match o with
      | some (.innerSchema t) => [t]
      | _ => [])) ++
  ([s.schema_if, s.schema_then, s.schema_else, s.schemaNot].flatMap
    Option.toList) ++
  (s.one_of.getD [] ++ s.all_of.getD [] ++ s.any_of.getD [] ++
    s.prefix_items.getD [])

/-- Fuel-bounded check that every node of a tree satisfies `P`; `false` when
the fuel does not cover the whole tree. -/
def allNodesF (P : Schema → Bool) : Nat → Schema → Bool
  | 0, _ => false
  | n + 1, s => P s && (childrenList s).all (fun c => allNodesF P n c)

/-- Fuel-bounded check that some node within reach satisfies `P`. -/
def anyNodeF (P : Schema → Bool) : Nat → Schema → Bool
  | 0, _ => false
  | n + 1, s => P s || (childrenList s).any (fun c => anyNodeF P n c)

/-- A node whose `ref` is set to something other than the self-pointer. -/
def isNonSelfRef (s : Schema) : Bool :=
  match s.reference with
  | some r => r != "#"
  | none => false

/-- Full tree walk: does any node carry a non-self `ref`? -/
def treeHasNonSelfRef (n : Nat) (s : Schema) : Bool :=
  anyNodeF isNonSelfRef n s

/-- Full tree walk: no node anywhere carries a `ref` (fuel-verified). -/
def refFreeF (n : Nat) (s : Schema) : Bool :=
  allNodesF (fun t => t.reference.isNone) n s

/-- No node carries a present-but-empty `properties` map (fuel-verified). -/
def noEmptyPropsF (n : Nat) (s : Schema) : Bool :=
  allNodesF (fun t =>
    match t.properties with
    | some l => !l.isEmpty
    | none => true) n s

/-! Concrete inputs used by the claim theorems. -/

/-- A bare reference node `{"$ref": "#/$defs/t"}`. -/
def refNode : Schema := .mk { SchemaF.allNone with reference := some "#/$defs/t" }

/-- The definition target `{"title": "T"}`. -/
def tTitled : Schema := .mk { SchemaF.allNone with title := some "T" }

/-- A root whose property `v` references `#/$defs/t`. -/
def c1root : Schema := .mk
  { SchemaF.allNone with
    properties := some [("v", refNode)], definitions := some [("t", tTitled)] }

/-- A one-entry index resolving `#/$defs/t`. -/
def c1idx : List (String × Schema) := [("#/$defs/t", tTitled)]

/-- What substituting `refNode` produces: the target's content with the
site's `ref` retained. -/
def c1merged : Schema := .mk
  { SchemaF.allNone with title := some "T", reference := some "#/$defs/t" }

/-- A reference node whose target exists in no index. -/
def missRef : Schema := .mk
  { SchemaF.allNone with reference := some "#/$defs/missing" }

/-- A root with a dangling reference under `properties`. -/
def c2root : Schema := .mk { SchemaF.allNone with properties := some [("p", missRef)] }

/-- A root whose `dependentSchemas` entry references `#/$defs/t`. -/
def c3root : Schema := .mk
  { SchemaF.allNone with
    dependent_schemas := some [("d", refNode)], definitions := some [("t", tTitled)] }

/-- Two schemas that both set `additionalItems` to a boolean. -/
def c4a : Schema := .mk { SchemaF.allNone with additional_items := some (.boolean true) }

/-- See `c4a`. -/
def c4b : Schema := .mk { SchemaF.allNone with additional_items := some (.boolean false) }

/-- What merging `c4a` into `c4b` actually produces. -/
def c4merged : Schema := .mk
  { SchemaF.allNone with additional_items := some (.boolean true) }

/-- A reference-free schema with a present-but-empty `properties` map. -/
def c6s : Schema := .mk { SchemaF.allNone with properties := some [] }

/-- What dereferencing `c6s` produces: the empty map is dropped. -/
def c6out : Schema := .mk SchemaF.allNone

/-- A definitions child carrying only a title. -/
def childA : Schema := .mk { SchemaF.allNone with title := some "A" }

/-- A root registered under its legacy id `r` with one definitions child. -/
def rootR : Schema := .mk
  { SchemaF.allNone with id := some "r", definitions := some [("a", childA)] }

/-- The registry after `add_internally_identified_schema(rootR)`. -/
def regR : SchemaRegistry := { discovered_schemas := [], schemas := [("r", rootR)] }

/-- The registry after a successful `discover()`. -/
def regRD : SchemaRegistry :=
  { discovered_schemas := [("r#/$defs/a", childA)], schemas := [("r", rootR)] }

/-- A schema that declares only the primary `$id`. -/
def sDollarOnly : Schema := .mk { SchemaF.allNone with dollar_id := some "https://x" }

/-! Generic helper lemmas about the embedding. -/

theorem except_bind_ok {ε : Type u} {α β : Type v} {x : Except ε α}
    {f : α → Except ε β} {c : β} (h : (x >>= f) = .ok c) :
    ∃ a, x = .ok a ∧ f a = .ok c := by
  cases x with
  | ok v => exact ⟨v, rfl, h⟩
  | error e => simp [Bind.bind, Except.bind] at h

theorem except_map_ok {ε : Type u} {α β : Type v} {x : Except ε α} {f : α → β}
    {c : β} (h : x.map f = .ok c) : ∃ a, x = .ok a ∧ f a = c := by
  cases x with
  | ok v =>
    refine ⟨v, rfl, ?_⟩
    simpa [Except.map] using h
  | error e => simp [Except.map] at h

/-- The keys of an association list. -/
def keysOf (l : List (String × β)) : List String := l.map (·.1)

theorem containsKey_iff_mem {l : List (String × β)} {k : String} :
    containsKey l k = true ↔ k ∈ keysOf l := by
  simp only [containsKey, lookupKey, keysOf]
  cases hf : l.find? (fun kv => kv.1 == k) with
  | none =>
    simp only [Option.map_none', Option.isSome_none, Bool.false_eq_true, false_iff]
    intro h
    obtain ⟨kv, hm, he⟩ := List.mem_map.mp h
    have hne := List.find?_eq_none.mp hf kv hm
    simp [he] at hne
  | some kv =>
    have hm := List.mem_of_find?_eq_some hf
    have hp : kv.1 = k := by simpa using List.find?_some hf
    simp only [Option.map_some', Option.isSome_some, true_iff]
    exact List.mem_map.mpr ⟨kv, hm, hp⟩

theorem mem_keysOf_insertReplace {l : List (String × β)} {k k' : String} {v : β} :
    k' ∈ keysOf (insertReplace l k v) ↔ (k' ∈ keysOf l ∨ k' = k) := by
  unfold insertReplace
  split
  · rename_i hc
    have hk : k ∈ keysOf l := containsKey_iff_mem.mp hc
    have hkeys : keysOf (l.map (fun kv => if kv.1 == k then (k, v) else kv)) = keysOf l := by
      simp only [keysOf, List.map_map]
      apply List.map_congr_left
      intro kv _
      by_cases h : kv.1 = k
      · simp [h]
      · simp [h]
    rw [hkeys]
    constructor
    · exact Or.inl
    · rintro (h | rfl)
      · exact h
      · exact hk
  · simp [keysOf]

theorem insertReplace_entry_mem {l : List (String × β)} {k : String} {v : β}
    {kv : String × β} (h : kv ∈ insertReplace l k v) : kv ∈ l ∨ kv = (k, v) := by
  unfold insertReplace at h
  split at h
  · obtain ⟨kv0, hm, he⟩ := List.mem_map.mp h
    by_cases hk : kv0.1 = k
    · right
      rw [← he]
      simp [hk]
    · left
      rw [← he]
      simpa [hk] using hm
  · rcases List.mem_append.mp h with h | h
    · exact Or.inl h
    · right
      simpa using h

theorem allNodesF_succ_self {P : Schema → Bool} {n : Nat} {s : Schema}
    (h : allNodesF P (n + 1) s = true) : P s = true := by
  simp only [allNodesF, Bool.and_eq_true] at h
  exact h.1

theorem allNodesF_succ_child {P : Schema → Bool} {n : Nat} {s c : Schema}
    (h : allNodesF P (n + 1) s = true) (hc : c ∈ childrenList s) :
    allNodesF P n c = true := by
  simp only [allNodesF, Bool.and_eq_true, List.all_eq_true] at h
  exact h.2 c hc

theorem allNodesF_mono {P : Schema → Bool} :
    ∀ {n m : Nat}, n ≤ m → ∀ {s : Schema}, allNodesF P n s = true →
    allNodesF P m s = true := by
  intro n
  induction n with
  | zero => intro m _ s h; simp [allNodesF] at h
  | succ n ih =>
    intro m hle s h
    cases m with
    | zero => omega
    | succ m =>
      simp only [allNodesF, Bool.and_eq_true, List.all_eq_true] at h ⊢
      exact ⟨h.1, fun c hc => ih (by omega) (h.2 c hc)⟩

theorem mem_anchorChildren_childrenList {c s : Schema}
    (h : c ∈ anchorChildren s) : c ∈ childrenList s := by
  simp only [anchorChildren, childrenList, List.mem_append] at h ⊢
  tauto

theorem prop_val_mem_childrenList {s : Schema} {kv : String × Schema}
    (h : kv ∈ optEntries s.properties) : kv.2 ∈ childrenList s := by
  simp only [childrenList, List.mem_append]
  exact Or.inl (Or.inl (Or.inl (Or.inl (Or.inl (Or.inl
    (List.mem_map.mpr ⟨kv, h, rfl⟩))))))

theorem def_val_mem_childrenList {s : Schema} {kv : String × Schema}
    (h : kv ∈ optEntries s.definitions) : kv.2 ∈ childrenList s := by
  simp only [childrenList, List.mem_append]
  exact Or.inl (Or.inl (Or.inl (Or.inl (Or.inl (Or.inr
    (List.mem_map.mpr ⟨kv, h, rfl⟩))))))

theorem items_inner_mem_childrenList {s t : Schema}
    (h : s.items = some (.innerSchema t)) : t ∈ childrenList s := by
  simp only [childrenList, List.mem_append]
  refine Or.inl (Or.inl (Or.inr ?_))
  simp only [List.mem_flatMap]
  exact ⟨s.items, by simp, by simp [h]⟩

/-- Inverting a successful `Merge for Schema`: the output's `reference` is
the left input's, and the merged field values come from the per-field merge
calls (in particular `additional_items` from merging against the target's
`items`). -/
theorem mergeSchema_ok_inv {n : Nat} {a b c : Schema}
    (h : mergeSchema (n + 1) a b = .ok c) :
    c.reference = a.reference ∧
    mergeOptBoSWith (mergeSchema n) a.additional_items b.items = .ok c.additional_items ∧
    mergeOptSOSA a.required b.required = .ok c.required ∧
    mergeOptSOSA a.schema_type b.schema_type = .ok c.schema_type ∧
    mergeOptBoxWith (mergeSchema n) a.schema_if b.schema_if = .ok c.schema_if ∧
    mergeDict a.properties b.properties = .ok c.properties := by
  obtain ⟨fa⟩ := a
  obtain ⟨fb⟩ := b
  simp only [mergeSchema] at h
  obtain ⟨v1, hv1, h⟩ := except_bind_ok h
  obtain ⟨v2, hv2, h⟩ := except_bind_ok h
  obtain ⟨v3, hv3, h⟩ := except_bind_ok h
  obtain ⟨v4, hv4, h⟩ := except_bind_ok h
  obtain ⟨v5, hv5, h⟩ := except_bind_ok h
  obtain ⟨v6, hv6, h⟩ := except_bind_ok h
  obtain ⟨v7, hv7, h⟩ := except_bind_ok h
  obtain ⟨v8, hv8, h⟩ := except_bind_ok h
  obtain ⟨v9, hv9, h⟩ := except_bind_ok h
  obtain ⟨v10, hv10, h⟩ := except_bind_ok h
  obtain ⟨v11, hv11, h⟩ := except_bind_ok h
  obtain ⟨v12, hv12, h⟩ := except_bind_ok h
  obtain ⟨v13, hv13, h⟩ := except_bind_ok h
  obtain ⟨v14, hv14, h⟩ := except_bind_ok h
  obtain ⟨v15, hv15, h⟩ := except_bind_ok h
  obtain ⟨v16, hv16, h⟩ := except_bind_ok h
  obtain ⟨v17, hv17, h⟩ := except_bind_ok h
  obtain ⟨v18, hv18, h⟩ := except_bind_ok h
  obtain ⟨v19, hv19, h⟩ := except_bind_ok h
  obtain ⟨v20, hv20, h⟩ := except_bind_ok h
  obtain ⟨v21, hv21, h⟩ := except_bind_ok h
  obtain ⟨v22, hv22, h⟩ := except_bind_ok h
  obtain ⟨v23, hv23, h⟩ := except_bind_ok h
  obtain ⟨v24, hv24, h⟩ := except_bind_ok h
  obtain ⟨v25, hv25, h⟩ := except_bind_ok h
  obtain ⟨v26, hv26, h⟩ := except_bind_ok h
  obtain ⟨v27, hv27, h⟩ := except_bind_ok h
  obtain ⟨v28, hv28, h⟩ := except_bind_ok h
  obtain ⟨v29, hv29, h⟩ := except_bind_ok h
  obtain ⟨v30, hv30, h⟩ := except_bind_ok h
  obtain ⟨v31, hv31, h⟩ := except_bind_ok h
  obtain ⟨v32, hv32, h⟩ := except_bind_ok h
  obtain ⟨v33, hv33, h⟩ := except_bind_ok h
  obtain ⟨v34, hv34, h⟩ := except_bind_ok h
  obtain ⟨v35, hv35, h⟩ := except_bind_ok h
  obtain ⟨v36, hv36, h⟩ := except_bind_ok h
  obtain ⟨v37, hv37, h⟩ := except_bind_ok h
  obtain ⟨v38, hv38, h⟩ := except_bind_ok h
  obtain ⟨v39, hv39, h⟩ := except_bind_ok h
  obtain ⟨v40, hv40, h⟩ := except_bind_ok h
  obtain ⟨v41, hv41, h⟩ := except_bind_ok h
  obtain ⟨v42, hv42, h⟩ := except_bind_ok h
  obtain ⟨v43, hv43, h⟩ := except_bind_ok h
  obtain ⟨v44, hv44, h⟩ := except_bind_ok h
  obtain ⟨v45, hv45, h⟩ := except_bind_ok h
  obtain ⟨v46, hv46, h⟩ := except_bind_ok h
  obtain ⟨v47, hv47, h⟩ := except_bind_ok h
  obtain ⟨v48, hv48, h⟩ := except_bind_ok h
  obtain ⟨v49, hv49, h⟩ := except_bind_ok h
  obtain ⟨v50, hv50, h⟩ := except_bind_ok h
  obtain ⟨v51, hv51, h⟩ := except_bind_ok h
  obtain ⟨v52, hv52, h⟩ := except_bind_ok h
  obtain ⟨v53, hv53, h⟩ := except_bind_ok h
  injection h with h
  subst h
  exact ⟨rfl, hv14, hv12, hv5, hv20, hv6⟩

/-- The output `reference` of any successful schema merge is the merging
site's own `reference`. -/
theorem mergeSchema_ok_ref {n : Nat} {a b c : Schema}
    (h : mergeSchema n a b = .ok c) : c.reference = a.reference := by
  cases n with
  | zero => simp [mergeSchema] at h
  | succ n => exact (mergeSchema_ok_inv h).1

/-- A successful dereference never changes a node's `reference` field: the
substitution step keeps the site's own `ref` (via the merge) and the child
rewriting does not touch it. -/
theorem derefSchema_ok_ref : ∀ {n : Nat} {idx : List (String × Schema)}
    {s t : Schema}, derefSchema n idx s = .ok t → t.reference = s.reference := by
  intro n idx s t h
  cases n with
  | zero => simp [derefSchema] at h
  | succ n =>
    simp only [derefSchema] at h
    obtain ⟨m, hm, h⟩ := except_bind_ok h
    simp only [derefRefStep] at hm
    have hmref : m.reference = s.reference := by
      cases hs : s.reference with
      | none =>
        rw [hs] at hm
        have hm2 : Except.ok s = Except.ok m := hm
        injection hm2 with hm2
        rw [← hm2]
        exact hs
      | some r =>
        rw [hs] at hm
        have hm2 :
            (if (r == "#") = true then Except.ok s
             else
               match lookupKey idx r with
               | some target =>
                 derefSchema n idx target >>= fun rt => mergeSchema n s rt
               | none => Except.ok s) = Except.ok m := hm
        by_cases hr : (r == "#") = true
        · rw [if_pos hr] at hm2
          injection hm2 with hm2
          rw [← hm2, hs]
        · rw [if_neg hr] at hm2
          cases hl : lookupKey idx r with
          | none =>
            rw [hl] at hm2
            have hm3 : Except.ok s = Except.ok m := hm2
            injection hm3 with hm3
            rw [← hm3]
            exact hs
          | some target =>
            rw [hl] at hm2
            have hm3 :
                (derefSchema n idx target >>= fun rt => mergeSchema n s rt) =
                  Except.ok m := hm2
            obtain ⟨rt, _, hmerge⟩ := except_bind_ok hm3
            rw [mergeSchema_ok_ref hmerge, hs]
    obtain ⟨props, _, h⟩ := except_bind_ok h
    obtain ⟨items, _, h⟩ := except_bind_ok h
    injection h with h
    rw [← h]
    exact hmref

/-- A successful dereference of a node that is not a reference site leaves
every structural field other than `properties` and `items` untouched. -/
theorem derefSchema_ok_frame : ∀ {n : Nat} {idx : List (String × Schema)}
    {s t : Schema}, s.reference = none → derefSchema n idx s = .ok t →
    t.definitions = s.definitions ∧ t.dependent_schemas = s.dependent_schemas ∧
    t.pattern_properties = s.pattern_properties ∧
    t.additional_items = s.additional_items ∧
    t.additional_properties = s.additional_properties ∧
    t.unevaluated_properties = s.unevaluated_properties ∧
    t.unevaluated_items = s.unevaluated_items ∧ t.contains = s.contains ∧
    t.schema_if = s.schema_if ∧ t.schema_then = s.schema_then ∧
    t.schema_else = s.schema_else ∧ t.schemaNot = s.schemaNot ∧
    t.one_of = s.one_of ∧ t.all_of = s.all_of ∧ t.any_of = s.any_of ∧
    t.prefix_items = s.prefix_items := by
  intro n idx s t hr h
  cases n with
  | zero => simp [derefSchema] at h
  | succ n =>
    simp only [derefSchema] at h
    obtain ⟨m, hm, h⟩ := except_bind_ok h
    simp only [derefRefStep] at hm
    rw [hr] at hm
    have hm2 : Except.ok s = Except.ok m := hm
    injection hm2 with hm2
    subst hm2
    obtain ⟨props, _, h⟩ := except_bind_ok h
    obtain ⟨items, _, h⟩ := except_bind_ok h
    injection h with h
    rw [← h]
    obtain ⟨f⟩ := s
    exact ⟨rfl, rfl, rfl, rfl, rfl, rfl, rfl, rfl, rfl, rfl, rfl, rfl, rfl,
      rfl, rfl, rfl⟩

theorem okBind {ε : Type u} {α β : Type v} (a : α) (f : α → Except ε β) :
    (Except.ok a >>= f) = f a := rfl

/-- The entries folded by a mapping merge are the two sides' entries in
order. -/
theorem mergeDict_entries (x y : Option (List (String × β))) :
    (x.toList ++ y.toList).flatMap (fun m => m) = optEntries x ++ optEntries y := by
  cases x <;> cases y <;> simp [optEntries]

/-- A successful mapping-merge fold yields exactly the keys of the
accumulator and of the folded entries. -/
theorem mergeDictFold_ok_keys :
    ∀ (l : List (String × β)) (m r : List (String × β)),
    l.foldlM mergeDictStep m = .ok r →
    ∀ k, k ∈ keysOf r ↔ (k ∈ keysOf m ∨ k ∈ keysOf l) := by
  intro l
  induction l with
  | nil =>
    intro m r h k
    have h2 : Except.ok m = Except.ok r := h
    injection h2 with h2
    subst h2
    simp [keysOf]
  | cons kv rest ih =>
    intro m r h k
    rw [List.foldlM_cons] at h
    obtain ⟨m2, hstep, hrest⟩ := except_bind_ok h
    unfold mergeDictStep at hstep
    split at hstep
    · simp at hstep
    · have h2 : insertReplace m kv.1 kv.2 = m2 := by
        injection hstep
      subst h2
      rw [ih _ _ hrest k]
      rw [mem_keysOf_insertReplace]
      simp only [keysOf, List.map_cons, List.mem_cons]
      constructor
      · rintro ((h | h) | h)
        · exact Or.inl h
        · exact Or.inr (Or.inl h)
        · exact Or.inr (Or.inr h)
      · rintro (h | h | h)
        · exact Or.inl (Or.inl h)
        · exact Or.inl (Or.inr h)
        · exact Or.inr h

/-- The mapping-merge fold succeeds when the folded keys are distinct and
disjoint from the accumulator's. -/
theorem mergeDictFold_ok_of_disjoint :
    ∀ (l : List (String × β)) (m : List (String × β)),
    (keysOf l).Nodup → (∀ k ∈ keysOf l, k ∉ keysOf m) →
    ∃ r, l.foldlM mergeDictStep m = .ok r := by
  intro l
  induction l with
  | nil => intro m _ _; exact ⟨m, rfl⟩
  | cons kv rest ih =>
    intro m hnd hdisj
    have hhd : kv.1 ∉ keysOf m := by
      apply hdisj
      simp [keysOf]
    have hc : containsKey m kv.1 = false := by
      cases hc : containsKey m kv.1
      · rfl
      · exact absurd (containsKey_iff_mem.mp hc) hhd
    have hcons : keysOf (kv :: rest) = kv.1 :: keysOf rest := rfl
    rw [hcons] at hnd
    obtain ⟨hhdrest, hnd2⟩ := List.nodup_cons.mp hnd
    have hdisj2 : ∀ k ∈ keysOf rest, k ∉ keysOf (insertReplace m kv.1 kv.2) := by
      intro k hk hmem
      rcases mem_keysOf_insertReplace.mp hmem with h | rfl
      · refine hdisj k ?_ h
        rw [hcons]
        exact List.mem_cons_of_mem _ hk
      · exact hhdrest hk
    obtain ⟨r, hr⟩ := ih (insertReplace m kv.1 kv.2) hnd2 hdisj2
    refine ⟨r, ?_⟩
    rw [List.foldlM_cons]
    unfold mergeDictStep
    rw [if_neg (by simp [hc])]
    rw [okBind]
    exact hr

/-- The mapping-merge fold fails as soon as a folded key is already in the
accumulator. -/
theorem mergeDictFold_error_of_hit :
    ∀ (l : List (String × β)) (m : List (String × β)) (k : String),
    k ∈ keysOf l → k ∈ keysOf m →
    l.foldlM mergeDictStep m = .error .clashingDefinition := by
  intro l
  induction l with
  | nil => intro m k hk _; simp [keysOf] at hk
  | cons kv rest ih =>
    intro m k hk hm
    rw [List.foldlM_cons]
    cases hc : containsKey m kv.1
    · have hm2 : k ∈ keysOf (insertReplace m kv.1 kv.2) :=
        mem_keysOf_insertReplace.mpr (Or.inl hm)
      have hkr : k ∈ keysOf rest := by
        rcases (by simpa [keysOf] using hk : k = kv.1 ∨ k ∈ keysOf rest) with rfl | h
        · exact absurd (containsKey_iff_mem.mpr hm) (by simp [hc])
        · exact h
      unfold mergeDictStep
      rw [if_neg (by simp [hc]), okBind]
      exact ih _ k hkr hm2
    · unfold mergeDictStep
      rw [if_pos hc]
      rfl

/-- Folding the `properties` rewrite over entries whose values dereference to
themselves rebuilds the entry list. -/
theorem derefProps_fold_id (rec : Schema → Except MergeErr Schema) :
    ∀ (l acc : List (String × Schema)),
    (∀ kv ∈ l, rec kv.2 = .ok kv.2) →
    l.foldlM
      (fun (acc : List (String × Schema)) kv =>
        rec kv.2 >>= fun d => Except.ok (acc ++ [(kv.1, d)])) acc =
      .ok (acc ++ l) := by
  intro l
  induction l with
  | nil =>
    intro acc _
    simp only [List.foldlM_nil, List.append_nil]
    rfl
  | cons kv rest ih =>
    intro acc h
    rw [List.foldlM_cons, h kv (by simp), okBind, okBind,
      ih _ (fun kv2 hm => h kv2 (by simp [hm]))]
    congr 1
    simp

theorem derefProps_some_id (rec : Schema → Except MergeErr Schema)
    (l : List (String × Schema)) (hl : l ≠ [])
    (h : ∀ kv ∈ l, rec kv.2 = .ok kv.2) :
    derefProps rec (some l) = .ok (some l) := by
  unfold derefProps
  rw [show optEntries (some l) = l from rfl, derefProps_fold_id rec l [] h, okBind]
  have hempty : l.isEmpty = false := by
    cases l
    · exact absurd rfl hl
    · rfl
  simp [hempty]

theorem derefItems_id (rec : Schema → Except MergeErr Schema)
    (o : Option BooleanOrSchema)
    (h : ∀ t, o = some (.innerSchema t) → rec t = .ok t) :
    derefItems rec o = .ok o := by
  cases o with
  | none => rfl
  | some b =>
    cases b with
    | boolean => rfl
    | innerSchema t =>
      have h2 := h t rfl
      show (rec t >>= fun d => Except.ok (some (BoolOr.innerSchema d))) =
        Except.ok (some (BoolOr.innerSchema t))
      rw [h2, okBind]

/-- A tree with no references and no present-but-empty `properties` map is a
fixed point of `Derefence::dereference`, for any index. -/
theorem derefSchema_fixed : ∀ (n : Nat) (idx : List (String × Schema))
    (s : Schema), refFreeF n s = true → noEmptyPropsF n s = true →
    derefSchema n idx s = .ok s := by
  intro n
  induction n with
  | zero => intro idx s h _; simp [refFreeF, allNodesF] at h
  | succ n ih =>
    intro idx s h1 h2
    obtain ⟨f⟩ := s
    have href : (Schema.mk f).reference = none :=
      Option.isNone_iff_eq_none.mp (allNodesF_succ_self h1)
    have hstep : derefRefStep (derefSchema n idx) (mergeSchema n) idx
        (Schema.mk f) = .ok (.mk f) := by
      unfold derefRefStep
      rw [href]
    have hprops : derefProps (derefSchema n idx) (Schema.mk f).properties =
        .ok (Schema.mk f).properties := by
      cases hp : (Schema.mk f).properties with
      | none => rfl
      | some l =>
        have hloc := allNodesF_succ_self h2
        rw [show ((Schema.mk f).properties) = some l from hp] at hloc
        have hl : l ≠ [] := by
          intro hnil
          subst hnil
          simp at hloc
        have hmem : ∀ kv ∈ l, derefSchema n idx kv.2 = .ok kv.2 := by
          intro kv hm
          have hc : kv.2 ∈ childrenList (Schema.mk f) :=
            prop_val_mem_childrenList (s := .mk f)
              (by rw [show optEntries ((Schema.mk f).properties) = l by rw [hp]; rfl]
                  exact hm)
          exact ih idx kv.2 (allNodesF_succ_child h1 hc) (allNodesF_succ_child h2 hc)
        exact derefProps_some_id _ l hl hmem
    have hitems : derefItems (derefSchema n idx) (Schema.mk f).items =
        .ok (Schema.mk f).items := by
      apply derefItems_id
      intro t ht
      have hc : t ∈ childrenList (Schema.mk f) := items_inner_mem_childrenList ht
      exact ih idx t (allNodesF_succ_child h1 hc) (allNodesF_succ_child h2 hc)
    simp only [derefSchema]
    rw [hstep, okBind, hprops, okBind, hitems, okBind]
    rfl

/-- Every entry that `index_anchors` adds is a node of the walked tree, so
any per-node property verified over the tree holds of the entries. -/
theorem indexAnchorsF_entries {P : Schema → Bool} :
    ∀ (n N : Nat), n ≤ N → ∀ (s : Schema) (idx : List (String × Schema)),
    allNodesF P n s = true →
    (∀ kv ∈ idx, allNodesF P N kv.2 = true) →
    ∀ kv ∈ indexAnchorsF n s idx, allNodesF P N kv.2 = true := by
  intro n
  induction n with
  | zero =>
    intro N _ s idx _ hidx kv hkv
    exact hidx kv hkv
  | succ n ih =>
    intro N hle s idx h hidx kv hkv
    simp only [indexAnchorsF] at hkv
    have hchildren : ∀ c ∈ anchorChildren s, allNodesF P n c = true :=
      fun c hc => allNodesF_succ_child h (mem_anchorChildren_childrenList hc)
    have hfold : ∀ (cs : List Schema) (idx0 : List (String × Schema)),
        (∀ c ∈ cs, allNodesF P n c = true) →
        (∀ kv ∈ idx0, allNodesF P N kv.2 = true) →
        ∀ kv ∈ cs.foldl (fun idx c => indexAnchorsF n c idx) idx0,
        allNodesF P N kv.2 = true := by
      intro cs
      induction cs with
      | nil => intro idx0 _ h0 kv hkv; exact h0 kv hkv
      | cons c rest ihl =>
        intro idx0 hcs h0 kv hkv
        rw [List.foldl_cons] at hkv
        exact ihl _ (fun c2 hm => hcs c2 (by simp [hm]))
          (ih N (by omega) c idx0 (hcs c (by simp)) h0) kv hkv
    cases ha : s.anchor with
    | none =>
      rw [ha] at hkv
      exact hfold _ idx hchildren hidx kv hkv
    | some a =>
      rw [ha] at hkv
      rcases insertReplace_entry_mem hkv with hin | heq
      · exact hfold _ idx hchildren hidx kv hin
      · rw [heq]
        exact allNodesF_mono hle h

/-- Every entry of the `to_index` map is a node of the indexed tree. -/
theorem indexF_entries {P : Schema → Bool} :
    ∀ (n N : Nat), n ≤ N →
    ∀ (s : Schema) (idx : List (String × Schema)) (path : String),
    allNodesF P n s = true →
    (∀ kv ∈ idx, allNodesF P N kv.2 = true) →
    ∀ kv ∈ indexF n s idx path, allNodesF P N kv.2 = true := by
  intro n
  induction n with
  | zero =>
    intro N _ s idx path _ hidx kv hkv
    exact hidx kv hkv
  | succ n ih =>
    intro N hle s idx path h hidx kv hkv
    simp only [indexF] at hkv
    have hidx1 : ∀ kv ∈ indexAnchorsF (n + 1) s idx, allNodesF P N kv.2 = true :=
      indexAnchorsF_entries (n + 1) N hle s idx h hidx
    have hidx2 : ∀ kv ∈ (if (path == "#" || s.id.isSome) = true then
        (optEntries s.definitions).foldl
          (fun idx kv => indexF n kv.2 idx (path ++ "/$defs/" ++ kv.1))
          (indexAnchorsF (n + 1) s idx)
        else indexAnchorsF (n + 1) s idx), allNodesF P N kv.2 = true := by
      split
      · have hfold : ∀ (es : List (String × Schema)) (idx0 : List (String × Schema)),
            (∀ kv ∈ es, allNodesF P n kv.2 = true) →
            (∀ kv ∈ idx0, allNodesF P N kv.2 = true) →
            ∀ kv ∈ es.foldl
              (fun idx kv => indexF n kv.2 idx (path ++ "/$defs/" ++ kv.1)) idx0,
            allNodesF P N kv.2 = true := by
          intro es
          induction es with
          | nil => intro idx0 _ h0 kv hkv; exact h0 kv hkv
          | cons e rest ihl =>
            intro idx0 hes h0 kv hkv
            rw [List.foldl_cons] at hkv
            exact ihl _ (fun kv2 hm => hes kv2 (by simp [hm]))
              (ih N (by omega) e.2 idx0 _ (hes e (by simp)) h0) kv hkv
        exact hfold _ _
          (fun kv2 hm => allNodesF_succ_child h (def_val_mem_childrenList hm))
          hidx1
      · exact hidx1
    rcases insertReplace_entry_mem hkv with hin | heq
    · exact hidx2 kv hin
    · rw [heq]
      exact allNodesF_mono hle h

/-- When every index entry dereferences to itself, the per-entry rewrite of
the public `dereference` succeeds. -/
theorem dereference_fold_ok {n : Nat} {idx : List (String × Schema)} :
    ∀ (l acc : List (String × Schema)),
    (∀ kv ∈ l, derefSchema n idx kv.2 = .ok kv.2) →
    ∃ r, l.foldlM
      (fun (acc : List (String × Schema)) kv =>
        derefSchema n idx kv.2 >>= fun d => Except.ok (insertReplace acc kv.1 d))
      acc = .ok r := by
  intro l
  induction l with
  | nil => intro acc _; exact ⟨acc, rfl⟩
  | cons kv rest ihl =>
    intro acc h
    obtain ⟨r, hr⟩ :=
      ihl (insertReplace acc kv.1 kv.2) (fun kv2 hm => h kv2 (by simp [hm]))
    refine ⟨r, ?_⟩
    rw [List.foldlM_cons, h kv (by simp), okBind, okBind]
    exact hr

/-! Claim theorems. -/

/-- C1, counterexample: `dereference` succeeds on `c1root` — a schema whose
property `v` is `{"$ref": "#/$defs/t"}` with `$defs.t` present — yet a full
walk of the output finds a node with a non-self `ref` set: the substituted
site keeps its `ref`, contradicting the claim that the output contains no
such node. -/
theorem c1_counterexample :
    Except.map (treeHasNonSelfRef 10) (dereference 10 c1root) = .ok true ∧
    isNonSelfRef refNode = true := by
  exact ⟨rfl, rfl⟩

/-- C1, amended: a successful dereference preserves every rewritten node's
`ref` field — the merge writes the site's own `reference` into the output —
so a substituted site retains its non-self `ref` instead of being cleared. -/
theorem c1_dereference_preserves_ref (n : Nat) (idx : List (String × Schema))
    (s t : Schema) (h : derefSchema n idx s = .ok t) :
    t.reference = s.reference :=
  derefSchema_ok_ref h

/-- C1 witness: dereferencing `refNode` against an index that resolves it
substitutes the target's content yet keeps `reference = some "#/$defs/t"`. -/
theorem c1_dereference_preserves_ref_witness :
    derefSchema 10 c1idx refNode = .ok c1merged ∧
    c1merged.reference = refNode.reference :=
  ⟨rfl, c1_dereference_preserves_ref 10 c1idx refNode c1merged rfl⟩

/-- C2: the code contradicts the claim on a dangling reference.  Through the
`Derefence` trait, `dereference` on `c2root` — whose property `p` carries
`$ref: "#/$defs/missing"`, matched by no index entry — succeeds and silently
keeps the unresolved node (`unwrap_or_else(|| Ok(self.clone()))`); through
the `resolve` helpers the same situation is a process abort
(`registry.get(reference).expect(reference)`), here the explicit panic
value.  Neither path returns a recoverable `UnresolvedReference` error. -/
theorem c2_failing_input_eval :
    dereference 10 c2root = .ok c2root ∧
    missRef.reference = some "#/$defs/missing" ∧
    lookupKey (toIndexF 10 c2root) "#/$defs/missing" = none ∧
    resolveDictWith (fun t => resolveF 9 t []) (some [("p", missRef)]) [] =
      .error (.panicUnresolvedReference "#/$defs/missing") := by
  exact ⟨rfl, rfl, rfl, rfl⟩

/-- C3, counterexample: `c3root` nests a reference under `dependentSchemas`
whose target `#/$defs/t` is present in the index, yet `dereference` returns
the input unchanged — the reference is not substituted, because resolution
recurses only into `properties` and `items`. -/
theorem c3_counterexample :
    dereference 10 c3root = .ok c3root ∧
    lookupKey (toIndexF 10 c3root) "#/$defs/t" = some tTitled ∧
    lookupKey (optEntries c3root.dependent_schemas) "d" = some refNode ∧
    isNonSelfRef refNode = true ∧
    refNode.title = none ∧ tTitled.title = some "T" := by
  exact ⟨rfl, rfl, rfl, rfl, rfl, rfl⟩

/-- C3, amended: `Derefence::dereference` recurses only into `properties`
and `items`; on a node that is not itself a reference site, every other
structural child field — `definitions`, `dependentSchemas`,
`patternProperties`, `additionalItems`, `additionalProperties`,
`unevaluatedProperties`, `unevaluatedItems`, `contains`, `if`/`then`/`else`,
`not`, `allOf`/`anyOf`/`oneOf`/`prefixItems` — is carried over untouched, so
a reference nested there is not substituted. -/
theorem c3_recursion_only_properties_items (n : Nat)
    (idx : List (String × Schema)) (s t : Schema) (hr : s.reference = none)
    (h : derefSchema n idx s = .ok t) :
    t.definitions = s.definitions ∧ t.dependent_schemas = s.dependent_schemas ∧
    t.pattern_properties = s.pattern_properties ∧
    t.additional_items = s.additional_items ∧
    t.additional_properties = s.additional_properties ∧
    t.unevaluated_properties = s.unevaluated_properties ∧
    t.unevaluated_items = s.unevaluated_items ∧ t.contains = s.contains ∧
    t.schema_if = s.schema_if ∧ t.schema_then = s.schema_then ∧
    t.schema_else = s.schema_else ∧ t.schemaNot = s.schemaNot ∧
    t.one_of = s.one_of ∧ t.all_of = s.all_of ∧ t.any_of = s.any_of ∧
    t.prefix_items = s.prefix_items :=
  derefSchema_ok_frame hr h

/-- C3 witness: instantiated at `c3root`, whose `dependentSchemas` (with its
unsubstituted reference) survives dereferencing verbatim. -/
theorem c3_recursion_only_properties_items_witness :
    c3root.reference = none ∧
    derefSchema 10 (toIndexF 10 c3root) c3root = .ok c3root ∧
    c3root.dependent_schemas = c3root.dependent_schemas :=
  ⟨rfl, rfl,
    (c3_recursion_only_properties_items 10 (toIndexF 10 c3root) c3root c3root
      rfl rfl).2.1⟩

/-- C4, counterexample: both sides present on the scalar slot
`additionalItems` (two booleans), yet the merge succeeds — and with the left
side's value only, the target's `additionalItems` being dropped — because
the source merges `self.additional_items` against `target.items`. -/
theorem c4_counterexample :
    c4a.additional_items = some (.boolean true) ∧
    c4b.additional_items = some (.boolean false) ∧
    mergeSchema 10 c4a c4b = .ok c4merged ∧
    c4merged.additional_items = some (.boolean true) :=
  ⟨rfl, rfl, rfl, rfl⟩

/-- C4, amended: plain scalar optional fields (strings, numbers, booleans,
arbitrary-JSON slots) merge exactly as claimed — at most one side present,
keeping the present value, both present a conflict.  But single nested
nodes and boolean-or-schema slots merge two inner schemas recursively
rather than failing (only a boolean on either side conflicts), and
`additional_items` is merged against the target's `items` field instead of
its same-named field. -/
theorem c4_scalar_field_merge :
    (∀ (α : Type) (x y : α),
      mergeOptScalar (some x) (some y) =
        (.error .clashingDefinition : Except MergeErr (Option α))) ∧
    (∀ (α : Type) (x : α), mergeOptScalar (some x) none = .ok (some x)) ∧
    (∀ (α : Type) (y : α), mergeOptScalar none (some y) = .ok (some y)) ∧
    (∀ (α : Type), mergeOptScalar (none : Option α) none = .ok none) ∧
    (∀ (n : Nat) (a b : Schema),
      mergeOptBox n (some a) (some b) = (mergeSchema n a b).map some) ∧
    (∀ (n : Nat) (x y : Bool),
      mergeOptBoS n (some (.boolean x)) (some (.boolean y)) =
        .error .clashingDefinition) ∧
    (∀ (n : Nat) (x : Bool) (q : Schema),
      mergeOptBoS n (some (.boolean x)) (some (.innerSchema q)) =
        .error .clashingDefinition) ∧
    (∀ (n : Nat) (p : Schema) (y : Bool),
      mergeOptBoS n (some (.innerSchema p)) (some (.boolean y)) =
        .error .clashingDefinition) ∧
    (∀ (n : Nat) (p q : Schema),
      mergeOptBoS n (some (.innerSchema p)) (some (.innerSchema q)) =
        (mergeSchema n p q).map (fun m => some (.innerSchema m))) ∧
    (∀ (n : Nat) (a b c : Schema), mergeSchema (n + 1) a b = .ok c →
      mergeOptBoS n a.additional_items b.items = .ok c.additional_items) := by
  refine ⟨fun α x y => rfl, fun α x => rfl, fun α y => rfl, fun α => rfl,
    ?_, fun n x y => rfl, fun n x q => rfl, fun n p y => rfl, ?_,
    fun n a b c h => (mergeSchema_ok_inv h).2.1⟩
  · intro n a b
    have hrw : mergeOptBox n (some a) (some b) =
        (mergeSchema n a b).map some >>= pure := rfl
    rw [hrw]
    cases hx : mergeSchema n a b <;> rfl
  · intro n p q
    have hrw : mergeOptBoS n (some (.innerSchema p)) (some (.innerSchema q)) =
        (mergeSchema n p q).map (fun m => some (.innerSchema m)) >>= pure := rfl
    rw [hrw]
    cases hx : mergeSchema n p q <;> rfl

/-- C4 witness: the hypothesis-carrying clause instantiated at the concrete
merge of `c4a` and `c4b`. -/
theorem c4_scalar_field_merge_witness :
    mergeSchema 10 c4a c4b = .ok c4merged ∧
    mergeOptBoS 9 c4a.additional_items c4b.items = .ok c4merged.additional_items :=
  ⟨rfl, c4_scalar_field_merge.2.2.2.2.2.2.2.2.2 9 c4a c4b c4merged rfl⟩

/-- C5: mapping fields merge to the union of keys — a key present on both
sides is a conflicting-definition error (even with equal values, no
last-wins), and with disjoint keys the merge succeeds and the output holds
exactly the keys of both sides. -/
theorem c5_mapping_merge_union (x y : Option (List (String × Schema)))
    (hx : (keysOf (optEntries x)).Nodup) (hy : (keysOf (optEntries y)).Nodup) :
    ((∃ k, k ∈ keysOf (optEntries x) ∧ k ∈ keysOf (optEntries y)) →
      mergeDict x y = .error .clashingDefinition) ∧
    ((∀ k ∈ keysOf (optEntries x), k ∉ keysOf (optEntries y)) →
      ∃ m, mergeDict x y = .ok m ∧
        ∀ k, k ∈ keysOf (optEntries m) ↔
          (k ∈ keysOf (optEntries x) ∨ k ∈ keysOf (optEntries y))) := by
  obtain ⟨r1, hr1⟩ := mergeDictFold_ok_of_disjoint (optEntries x) [] hx
    (by intro k _ hk; simp [keysOf] at hk)
  have hkeys1 : ∀ k, k ∈ keysOf r1 ↔ k ∈ keysOf (optEntries x) := by
    intro k
    rw [mergeDictFold_ok_keys _ _ _ hr1 k]
    simp [keysOf]
  constructor
  · rintro ⟨k, hkx, hky⟩
    unfold mergeDict
    rw [mergeDict_entries, List.foldlM_append, hr1, okBind,
      mergeDictFold_error_of_hit (optEntries y) r1 k hky ((hkeys1 k).mpr hkx)]
    rfl
  · intro hdisj
    obtain ⟨r2, hr2⟩ := mergeDictFold_ok_of_disjoint (optEntries y) r1 hy
      (by
        intro k hk hmem
        exact hdisj k ((hkeys1 k).mp hmem) hk)
    have hkeys2 : ∀ k, k ∈ keysOf r2 ↔
        (k ∈ keysOf (optEntries x) ∨ k ∈ keysOf (optEntries y)) := by
      intro k
      rw [mergeDictFold_ok_keys _ _ _ hr2 k, hkeys1 k]
    refine ⟨if r2.isEmpty then none else some r2, ?_, ?_⟩
    · unfold mergeDict
      rw [mergeDict_entries, List.foldlM_append, hr1, okBind, hr2]
      rfl
    · intro k
      rw [← hkeys2 k]
      cases hr : r2.isEmpty
      · simp [hr, optEntries]
      · have : r2 = [] := by
          cases r2
          · rfl
          · simp at hr
        subst this
        simp [optEntries, keysOf]

/-- C5 witness: a reference site defining `properties.name` merged with a
target defining the same key fails; with the disjoint key
`properties.other` it succeeds and the output holds both keys. -/
theorem c5_mapping_merge_union_witness :
    (keysOf (optEntries (some [("name", tTitled)]))).Nodup ∧
    (keysOf (optEntries (some [("name", childA)]))).Nodup ∧
    (keysOf (optEntries (some [("other", childA)]))).Nodup ∧
    mergeDict (some [("name", tTitled)]) (some [("name", childA)]) =
      .error .clashingDefinition ∧
    ∃ m, mergeDict (some [("name", tTitled)]) (some [("other", childA)]) =
      .ok m ∧ ∀ k, k ∈ keysOf (optEntries m) ↔
        (k ∈ keysOf (optEntries (some [("name", tTitled)])) ∨
          k ∈ keysOf (optEntries (some [("other", childA)]))) := by
  refine ⟨by simp [keysOf, optEntries], by simp [keysOf, optEntries],
    by simp [keysOf, optEntries], ?_, ?_⟩
  · exact (c5_mapping_merge_union (some [("name", tTitled)])
      (some [("name", childA)]) (by simp [keysOf, optEntries])
      (by simp [keysOf, optEntries])).1
      ⟨"name", by simp [keysOf, optEntries], by simp [keysOf, optEntries]⟩
  · exact (c5_mapping_merge_union (some [("name", tTitled)])
      (some [("other", childA)]) (by simp [keysOf, optEntries])
      (by simp [keysOf, optEntries])).2
      (by
        intro k hk
        simp [keysOf, optEntries] at hk
        simp [keysOf, optEntries, hk])

/-- C9: the string-or-array merge used for `required` and `type` — two
single strings conflict, two arrays concatenate, mixed shapes conflict, at
most one side present succeeds with that side — and `Merge for Schema`
applies exactly it to the same-named `required` and `type` fields. -/
theorem c9_string_or_array_merge :
    (∀ s t : String, mergeOptSOSA (some (.str s)) (some (.str t)) =
      .error .clashingDefinition) ∧
    (∀ xs ys : List String, mergeOptSOSA (some (.arr xs)) (some (.arr ys)) =
      .ok (some (.arr (xs ++ ys)))) ∧
    (∀ (s : String) (ys : List String),
      mergeOptSOSA (some (.str s)) (some (.arr ys)) =
        .error .clashingDefinition) ∧
    (∀ (xs : List String) (t : String),
      mergeOptSOSA (some (.arr xs)) (some (.str t)) =
        .error .clashingDefinition) ∧
    (∀ v : StringOrStringArray, mergeOptSOSA (some v) none = .ok (some v)) ∧
    (∀ v : StringOrStringArray, mergeOptSOSA none (some v) = .ok (some v)) ∧
    (mergeOptSOSA none none = .ok none) ∧
    (∀ (n : Nat) (a b c : Schema), mergeSchema (n + 1) a b = .ok c →
      mergeOptSOSA a.required b.required = .ok c.required ∧
      mergeOptSOSA a.schema_type b.schema_type = .ok c.schema_type) :=
  ⟨fun s t => rfl, fun xs ys => rfl, fun s ys => rfl, fun xs t => rfl,
    fun v => rfl, fun v => rfl, rfl,
    fun n a b c h => ⟨(mergeSchema_ok_inv h).2.2.1, (mergeSchema_ok_inv h).2.2.2.1⟩⟩

theorem lookupKey_append_self {k : String} {v : β} :
    ∀ (l : List (String × β)), k ∉ keysOf l →
    lookupKey (l ++ [(k, v)]) k = some v := by
  intro l
  induction l with
  | nil =>
    intro _
    simp [lookupKey, List.find?_cons]
  | cons kv0 rest ih =>
    intro hk
    have hks : k ≠ kv0.1 ∧ k ∉ keysOf rest := by
      simpa [keysOf] using hk
    have h0 : (kv0.1 == k) = false := by
      simp
      exact fun he => hks.1 he.symm
    rw [List.cons_append]
    unfold lookupKey
    simp only [List.find?]
    rw [h0]
    exact ih hks.2

theorem lookupKey_insertReplace_fresh {l : List (String × β)} {k : String}
    {v : β} (h : containsKey l k = false) :
    lookupKey (insertReplace l k v) k = some v := by
  unfold insertReplace
  rw [h]
  simp only [Bool.false_eq_true, if_false]
  apply lookupKey_append_self
  intro hmem
  rw [← containsKey_iff_mem] at hmem
  rw [h] at hmem
  cases hmem

/-- C6, counterexample: `c6s` is `{"properties": {}}` — reference-free with
a present-but-empty structural mapping — yet `dereference` does not return a
value equal to the input: the empty `properties` map is normalised away. -/
theorem c6_counterexample :
    refFreeF 5 c6s = true ∧
    c6s.properties = some [] ∧
    dereference 5 c6s = .ok c6out ∧
    ¬ c6out = c6s := by
  refine ⟨rfl, rfl, rfl, ?_⟩
  intro h
  have h2 := congrArg Schema.properties h
  simp [c6out, c6s, Schema.properties, Schema.fields, SchemaF.allNone] at h2

/-- C6, amended: on a schema with zero `ref` nodes anywhere *and* no node
with a present-but-empty `properties` map, `dereference` returns the input
unchanged. -/
theorem c6_idempotent_on_ref_free (n : Nat) (s : Schema)
    (h1 : refFreeF n s = true) (h2 : noEmptyPropsF n s = true) :
    dereference n s = .ok s := by
  have hentries : ∀ kv ∈ toIndexF n s,
      derefSchema n (toIndexF n s) kv.2 = .ok kv.2 := by
    intro kv hkv
    have e1 := indexF_entries n n (le_refl n) s [] "#" h1
      (by intro kv2 h; simp at h) kv hkv
    have e2 := indexF_entries n n (le_refl n) s [] "#" h2
      (by intro kv2 h; simp at h) kv hkv
    exact derefSchema_fixed n _ kv.2 e1 e2
  obtain ⟨r, hfold⟩ := dereference_fold_ok (toIndexF n s) [] hentries
  show ((toIndexF n s).foldlM
      (fun (acc : List (String × Schema)) kv =>
        derefSchema n (toIndexF n s) kv.2 >>= fun d =>
          Except.ok (insertReplace acc kv.1 d)) [] >>= fun idx2 =>
      derefSchema n idx2 s) = Except.ok s
  rw [hfold, okBind]
  exact derefSchema_fixed n r s h1 h2

/-- C6 witness: the amended idempotence at the concrete ref-free schema
`tTitled`. -/
theorem c6_idempotent_on_ref_free_witness :
    refFreeF 3 tTitled = true ∧ noEmptyPropsF 3 tTitled = true ∧
    dereference 3 tTitled = .ok tTitled :=
  ⟨rfl, rfl, c6_idempotent_on_ref_free 3 tTitled rfl rfl⟩

/-- C7: the code contradicts the claim.  Registering `rootR` (legacy id
`r`, one definitions child) and running `discover()` succeeds and the
Discoverer yields the pair `("r#/$defs/a", childA)`, but `get` on that
canonical id returns `None`: discovered pairs land in the separate
`discovered_schemas` map, which `get` never consults. -/
theorem c7_failing_input_eval :
    SchemaRegistry.new.add_internally_identified_schema rootR = .ok regR ∧
    regR.discover 10 = .ok regRD ∧
    ("r#/$defs/a", childA) ∈ discoverPairsF 10 rootR ∧
    regRD.get "r#/$defs/a" = none ∧
    lookupKey regRD.discovered_schemas "r#/$defs/a" = some childA := by
  refine ⟨rfl, rfl, ?_, rfl, rfl⟩
  rw [show discoverPairsF 10 rootR = [("r#/$defs/a", childA)] from rfl]
  exact List.mem_singleton.mpr rfl

/-- C8, counterexample: a schema declaring only the primary `$id` is
rejected with the missing-identity error, although the claim says
registration fails only when *neither* `$id` nor the legacy `id` is
declared. -/
theorem c8_counterexample :
    sDollarOnly.dollar_id = some "https://x" ∧
    SchemaRegistry.new.add_internally_identified_schema sDollarOnly =
      .error .noInternalIdentifier :=
  ⟨rfl, rfl⟩

/-- C8, amended: `add_internally_identified_schema` fails with the
missing-identity error exactly when the legacy `id` field is absent — the
primary `$id` is ignored — and with a fresh legacy `id` present it registers
the schema under that id. -/
theorem c8_add_internal_uses_legacy_id (r : SchemaRegistry) (s : Schema) :
    (r.add_internally_identified_schema s = .error .noInternalIdentifier ↔
      s.id = none) ∧
    (∀ i, s.id = some i → r.schema_exists i = false →
      ∃ r2, r.add_internally_identified_schema s = .ok r2 ∧
        r2.get i = some s) := by
  constructor
  · cases hid : s.id with
    | none => simp [SchemaRegistry.add_internally_identified_schema, hid]
    | some i =>
      simp only [SchemaRegistry.add_internally_identified_schema, hid]
      constructor
      · intro h
        split at h
        · exact absurd h (by simp)
        · exact absurd h (by simp)
      · intro h
        simp at h
  · intro i hi hex
    simp only [SchemaRegistry.add_internally_identified_schema, hi, hex]
    refine ⟨_, by rw [if_neg (by simp [hex])], ?_⟩
    unfold SchemaRegistry.get
    have hc : containsKey r.schemas i = false := by
      unfold SchemaRegistry.schema_exists at hex
      exact (Bool.or_eq_false_iff.mp hex).1
    exact lookupKey_insertReplace_fresh hc

/-- C8 witness: the amended statement at a concrete registry and schema. -/
theorem c8_add_internal_uses_legacy_id_witness :
    (SchemaRegistry.new.add_internally_identified_schema rootR =
        .error .noInternalIdentifier ↔ rootR.id = none) ∧
    (rootR.id = some "r" ∧ SchemaRegistry.new.schema_exists "r" = false ∧
      ∃ r2, SchemaRegistry.new.add_internally_identified_schema rootR =
        .ok r2 ∧ r2.get "r" = some rootR) :=
  ⟨(c8_add_internal_uses_legacy_id SchemaRegistry.new rootR).1,
    rfl, rfl,
    (c8_add_internal_uses_legacy_id SchemaRegistry.new rootR).2 "r" rfl rfl⟩

theorem discoverLoop_schemas_aux :
    ∀ (pairs : List (String × Schema)) (r : SchemaRegistry),
    ((discoverLoop pairs r).1).schemas = r.schemas := by
  intro pairs
  induction pairs with
  | nil => intro r; rfl
  | cons kv rest ih =>
    intro r
    simp only [discoverLoop]
    split
    · rfl
    · exact ih _

/-- C10: `discover()` never removes or replaces a registered root schema —
the loop only ever inserts into the secondary `discovered_schemas` map, so
the primary map (and hence every `get` result) is unchanged at whatever
point the loop stops, and in particular on success. -/
theorem c10_discover_preserves_roots :
    (∀ (pairs : List (String × Schema)) (r : SchemaRegistry),
      ((discoverLoop pairs r).1).schemas = r.schemas) ∧
    (∀ (n : Nat) (r r2 : SchemaRegistry), r.discover n = .ok r2 →
      r2.schemas = r.schemas ∧ ∀ id, r2.get id = r.get id) := by
  refine ⟨discoverLoop_schemas_aux, ?_⟩
  intro n r r2 h
  simp only [SchemaRegistry.discover] at h
  cases hL : discoverLoop (r.schemas.flatMap fun kv => discoverPairsF n kv.2) r with
  | mk rr o =>
    rw [hL] at h
    cases o with
    | none =>
      have h2 : Except.ok rr = Except.ok r2 := h
      injection h2 with h2
      subst h2
      have hs := discoverLoop_schemas_aux
        (r.schemas.flatMap fun kv => discoverPairsF n kv.2) r
      rw [hL] at hs
      refine ⟨hs, fun id => ?_⟩
      unfold SchemaRegistry.get
      rw [hs]
    | some e => simp at h

/-- C10 witness: the success clause at the concrete registry `regR`. -/
theorem c10_discover_preserves_roots_witness :
    regR.discover 10 = .ok regRD ∧
    (regRD.schemas = regR.schemas ∧ ∀ id, regRD.get id = regR.get id) :=
  ⟨rfl, c10_discover_preserves_roots.2 10 regR regRD rfl⟩

/-- Two schemas whose `required` arrays concatenate under merge. -/
def c9a : Schema := .mk { SchemaF.allNone with required := some (.arr ["a"]) }

/-- See `c9a`; also carries a `type` for the same-named-field clause. -/
def c9b : Schema := .mk
  { SchemaF.allNone with
    required := some (.arr ["b"]), schema_type := some (.str "object") }

/-- The merge of `c9a` and `c9b`. -/
def c9merged : Schema := .mk
  { SchemaF.allNone with
    required := some (.arr ["a", "b"]), schema_type := some (.str "object") }

/-- C9 witness: the hypothesis-carrying clause instantiated at the concrete
merge of `c9a` and `c9b`. -/
theorem c9_string_or_array_merge_witness :
    mergeSchema 10 c9a c9b = .ok c9merged ∧
    (mergeOptSOSA c9a.required c9b.required = .ok c9merged.required ∧
      mergeOptSOSA c9a.schema_type c9b.schema_type = .ok c9merged.schema_type) :=
  ⟨rfl, c9_string_or_array_merge.2.2.2.2.2.2.2 9 c9a c9b c9merged rfl⟩
